import Mathlib

/-!
Verification development for the business-objects framework: a shallow
embedding of the object lifecycle engine (model state machine, rule and
permission evaluation, synchronous data portal) together with theorems
checking the specification claims against the embedded code.

The definitions follow the JavaScript sources:
source/editable-root-model-sync.js (the synchronous editable root model),
the editable child object module, source/read-only-child-model.js and the
synchronous read-only root collection variant. Components whose source
files are not part of the inspected tree (broken-rule-list.js,
rule-manager.js, data-store.js, the synchronous editable child model) are
modelled from the specification and marked as such in their doc comments.
-/

namespace BusinessObjects

/-- Lifecycle states of a model instance, from shared/model-state.js as
used by the sources. The implicit pre-creation unset state of the closure
variable state (JavaScript null) is represented by none in
Option ModelState. -/
inductive ModelState
  | pristine
  | created
  | changed
  | markedForRemoval
  | removed
deriving DecidableEq, Repr, Fintype

/-- The data portal actions and data access object methods used by the
synchronous root model (shared/data-portal-action.js). -/
inductive DaoMethod
  | create
  | fetch
  | insert
  | update
  | remove
deriving DecidableEq, Repr

/-- Errors that the embedded code can raise. The transitionError case is
ModelError with the transition message of the mark-state functions; the
dataPortal case is DataPortalError carrying the model description, the
model name, the failed action and the underlying cause; daoFailure stands
for an arbitrary error raised by the external data access collaborator,
identified by a numeric code. -/
inductive JsError
  | transitionError (src : Option ModelState) (target : ModelState)
  | typeError
  | referenceError
  | daoFailure (code : Nat)
  | dataPortal (modelDesc : String) (modelName : String) (action : DaoMethod) (cause : JsError)
deriving DecidableEq, Repr

/-- Severities of broken rules (rules/rule-severity.js). -/
inductive RuleSeverity
  | success
  | information
  | warning
  | error
deriving DecidableEq, Repr

/-- A recorded rule failure (rules/broken-rule.js), with the fields the
specification names in section 3. -/
structure BrokenRule where
  ruleName : String
  propertyName : String
  message : String
  severity : RuleSeverity
deriving DecidableEq, Repr

/-- Modelled from the spec: BrokenRuleList.isValid
(source/rules/broken-rule-list.js is not part of the inspected tree).
Section 4.2 of the specification: an object is valid with respect to its
own records iff it has no recorded BrokenRule of severity error. -/
def brokenListIsValid (rs : List BrokenRule) : Bool :=
  rs.all (fun r => r.severity != RuleSeverity.error)

/-- True when the list of recorded broken rules contains an entry of
severity error. -/
def hasErrorEntry (rs : List BrokenRule) : Bool :=
  rs.any (fun r => r.severity == RuleSeverity.error)

/-- Primitive JavaScript values held in the property store and in data
transfer objects. -/
inductive JsValue
  | vNull
  | vBool (b : Bool)
  | vNum (n : Int)
  | vStr (s : String)
deriving DecidableEq, Repr

/-- The property store of one instance: a mapping from property name to
current value. -/
abbrev DataStore := List (String × JsValue)

/-- Modelled from the spec: DataStore.getValue
(source/shared/data-store.js is not part of the inspected tree). Returns
the stored value of the property, null when the property has not been
initialized. -/
def DataStore.getValue (st : DataStore) (nm : String) : JsValue :=
  match st.find? (fun e => e.1 == nm) with
  | some e => e.2
  | none => JsValue.vNull

/-- Modelled from the spec: DataStore.setValue
(source/shared/data-store.js is not part of the inspected tree). Section
4.1 of the specification: setValue returns a changed flag that is true
only if the value actually differs, using value equality for primitives. -/
def DataStore.setValue (st : DataStore) (nm : String) (v : JsValue) : Bool × DataStore :=
  if DataStore.getValue st nm == v then
    (false, st)
  else
    (true, (nm, v) :: st.filter (fun e => e.1 != nm))

/-- A property definition of the model catalog, restricted to the fields
the embedded operations consult. -/
structure PropertyInfo where
  name : String
  isOnDto : Bool
deriving DecidableEq, Repr

/-- A data transfer object: a plain mapping from property name to value. -/
abbrev Dto := List (String × JsValue)

/-- An editable child object instance, after the editable child object
module: the closure variables state, isDirty, isValidated, brokenRules,
the results that running the validation rules over the own properties
would record, and the child objects held in child properties. -/
inductive ChildObj
  | mk (state : Option ModelState) (isDirty : Bool) (isValidated : Bool)
      (brokenRules : List BrokenRule) (validationResults : List BrokenRule)
      (children : List ChildObj)

/-- The state closure variable of a child object. -/
def ChildObj.state : ChildObj → Option ModelState
  | .mk s _ _ _ _ _ => s

/-- The isDirty closure variable of a child object, the self-owned dirty
flag. -/
def ChildObj.isDirty : ChildObj → Bool
  | .mk _ d _ _ _ _ => d

/-- The isValidated closure variable of a child object. -/
def ChildObj.isValidated : ChildObj → Bool
  | .mk _ _ v _ _ _ => v

/-- The currently recorded broken rules of a child object. -/
def ChildObj.brokenRules : ChildObj → List BrokenRule
  | .mk _ _ _ br _ _ => br

/-- The child objects held in the child properties of a child object. -/
def ChildObj.children : ChildObj → List ChildObj
  | .mk _ _ _ _ _ kids => kids

/-- The markAsChanged function of the editable child object: from pristine
the state moves to changed and the parent is notified; from created only
the dirty flag and the parent notification happen; from removed the
transition is illegal; every other state, the unset state included, falls
through without action. The returned number counts the propagateChange
calls to the parent. -/
def ChildObj.markAsChangedLocal (itself : Bool) : ChildObj → ChildObj × Option JsError × Nat
  | .mk s d v br vr kids =>
    match s with
    | some .pristine => (.mk (some .changed) (d || itself) false br vr kids, none, 1)
    | some .created => (.mk (some .created) (d || itself) false br vr kids, none, 1)
    | some .removed => (.mk s d v br vr kids, some (.transitionError s .changed), 0)
    | _ => (.mk s d v br vr kids, none, 0)

mutual

/-- The markForRemoval function of the editable child object: from
pristine or changed the state moves to markedForRemoval, removal is
propagated down to every child, then the change is propagated up to the
parent; from created the state short-circuits to removed; markedForRemoval
is a no-op; every other state is an illegal transition. The returned
number counts the propagateChange calls to the parent. -/
def ChildObj.markForRemoval : ChildObj → ChildObj × Option JsError × Nat
  | .mk s d v br vr kids =>
    match s with
    | some .pristine | some .changed =>
      let res := removeChildrenCascade kids
      let c1 : ChildObj := .mk (some .markedForRemoval) true v br vr res.1
      match res.2 with
      | some e => (c1, some e, 0)
      | none => (c1, none, 1)
    | some .created => (.mk (some .removed) d v br vr kids, none, 0)
    | some .markedForRemoval => (.mk s d v br vr kids, none, 0)
    | _ => (.mk s d v br vr kids, some (.transitionError s .markedForRemoval), 0)

/-- The propagateRemoval loop: remove is called on every child in order;
an exception thrown by a child stops the loop and leaves the remaining
children untouched. The childHasChanged notifications the children send
back to the owner are absorbed here: the owner has just been set to
markedForRemoval, a state in which its markAsChanged is a no-op by the
transition comment table. -/
def removeChildrenCascade : List ChildObj → List ChildObj × Option JsError
  | [] => ([], none)
  | c :: cs =>
    let res := ChildObj.markForRemoval c
    match res.2.1 with
    | some e => (res.1 :: cs, some e)
    | none =>
      let rest := removeChildrenCascade cs
      (res.1 :: rest.1, rest.2)

end

/-- A synchronous editable root model instance
(source/editable-root-model-sync.js): the closure variables state,
isDirty, isValidated, brokenRules, the results that running the
validation rules over the own properties would record, the property
store, and the child objects held in child properties. -/
structure RootObj where
  state : Option ModelState
  isDirty : Bool
  isValidated : Bool
  brokenRules : List BrokenRule
  validationResults : List BrokenRule
  store : DataStore
  children : List ChildObj

/-- The markAsPristine function of the synchronous editable root model:
illegal from markedForRemoval and removed, a no-op from pristine, and
otherwise sets the state to pristine and clears the dirty flag. -/
def RootObj.markAsPristine (o : RootObj) : RootObj × Option JsError :=
  match o.state with
  | some .markedForRemoval | some .removed => (o, some (.transitionError o.state .pristine))
  | some .pristine => (o, none)
  | _ => ({ o with state := some .pristine, isDirty := false }, none)

/-- The markAsCreated function of the synchronous editable root model:
from the unset state it sets created and the dirty flag; a no-op from
created; illegal from every other state. -/
def RootObj.markAsCreated (o : RootObj) : RootObj × Option JsError :=
  match o.state with
  | none => ({ o with state := some .created, isDirty := true }, none)
  | some .created => (o, none)
  | _ => (o, some (.transitionError o.state .created))

/-- The markAsChanged function of the synchronous editable root model:
from pristine the state moves to changed, the dirty flag absorbs the
itself argument and the validation flag resets; from removed the
transition is illegal; every other state, the unset state included,
falls through without action. -/
def RootObj.markAsChanged (o : RootObj) (itself : Bool) : RootObj × Option JsError :=
  match o.state with
  | some .pristine =>
    ({ o with state := some .changed, isDirty := o.isDirty || itself, isValidated := false }, none)
  | some .removed => (o, some (.transitionError o.state .changed))
  | _ => (o, none)

/-- The markForRemoval function of the synchronous editable root model:
from pristine or changed the state moves to markedForRemoval, the dirty
flag is set and removal propagates down to the children; from created the
state short-circuits to removed; markedForRemoval is a no-op; every other
state is an illegal transition. The childHasChanged notifications sent
back by the children are absorbed because the root is already in
markedForRemoval, where its markAsChanged is a no-op. -/
def RootObj.markForRemoval (o : RootObj) : RootObj × Option JsError :=
  match o.state with
  | some .pristine | some .changed =>
    let res := removeChildrenCascade o.children
    ({ o with state := some .markedForRemoval, isDirty := true, children := res.1 }, res.2)
  | some .created => ({ o with state := some .removed }, none)
  | some .markedForRemoval => (o, none)
  | _ => (o, some (.transitionError o.state .markedForRemoval))

/-- The markAsRemoved function of the synchronous editable root model:
from created or markedForRemoval the state moves to removed and the dirty
flag clears; a no-op from removed; illegal from every other state. -/
def RootObj.markAsRemoved (o : RootObj) : RootObj × Option JsError :=
  match o.state with
  | some .created | some .markedForRemoval =>
    ({ o with state := some .removed, isDirty := false }, none)
  | some .removed => (o, none)
  | _ => (o, some (.transitionError o.state .removed))

/-- The remove action of the synchronous editable root model: it simply
calls markForRemoval. -/
def RootObj.remove (o : RootObj) : RootObj × Option JsError :=
  RootObj.markForRemoval o

/-- The isNew property getter: the state equals created. -/
def RootObj.isNewGet (o : RootObj) : Bool :=
  o.state == some ModelState.created

/-- The isDirty property getter: the state is created, changed or
markedForRemoval. -/
def RootObj.isDirtyGet (o : RootObj) : Bool :=
  o.state == some ModelState.created || o.state == some ModelState.changed ||
    o.state == some ModelState.markedForRemoval

/-- The isSelfDirty property getter: the isDirty closure variable. -/
def RootObj.isSelfDirtyGet (o : RootObj) : Bool :=
  o.isDirty

/-- The isDeleted property getter: the state equals markedForRemoval. -/
def RootObj.isDeletedGet (o : RootObj) : Bool :=
  o.state == some ModelState.markedForRemoval

/-- The checkRules method of the synchronous editable root model: it
clears the recorded broken rules, runs the validation rules over the own
properties, recording their results, and sets the validated flag. The
child objects are not visited. -/
def RootObj.checkRules (o : RootObj) : RootObj :=
  { o with brokenRules := o.validationResults, isValidated := true }

/-- The isValid method of the synchronous editable root model: checkRules
runs when the instance has not been validated yet, then the result is
whether the own recorded broken rules contain no error. The child objects
are not consulted. -/
def RootObj.isValidRun (o : RootObj) : Bool × RootObj :=
  let o1 := if o.isValidated then o else o.checkRules
  (brokenListIsValid o1.brokenRules, o1)

mutual

/-- The recursive specification property behind the isValid contract,
written after the words of the specification: a broken rule of severity
error exists among the recorded rules of the object itself or of one of
its descendant child objects. -/
def ChildObj.hasErrorRecursive : ChildObj → Bool
  | .mk _ _ _ br _ kids => hasErrorEntry br || anyErrorRecursive kids

/-- Whether any object of the list breaks an error-severity rule,
recursively. -/
def anyErrorRecursive : List ChildObj → Bool
  | [] => false
  | c :: cs => ChildObj.hasErrorRecursive c || anyErrorRecursive cs

end

/-- The recursive specification property for a root instance: an
error-severity broken rule is recorded on the root itself or on one of
its descendant child objects. -/
def RootObj.hasErrorRecursive (o : RootObj) : Bool :=
  hasErrorEntry o.brokenRules || anyErrorRecursive o.children

/-- Classification of one cell of the transition table in section 3 of
the specification. -/
inductive TransitionSpec
  | allowed
  | noop
  | forbidden
  | shortCircuitRemoved
deriving DecidableEq, Repr

/-- The transition table of section 3 of the specification, written after
the words of the spec: rows are the from-state (none is the unset state),
columns the to-state of the corresponding mark-operation. This definition
follows the spec, not the source; it is the reference the embedded
mark-state functions are compared against. -/
def specTransitionTable : Option ModelState → ModelState → TransitionSpec
  | none, .pristine => .allowed
  | none, .created => .allowed
  | none, _ => .forbidden
  | some .pristine, .pristine => .noop
  | some .pristine, .created => .forbidden
  | some .pristine, .changed => .allowed
  | some .pristine, .markedForRemoval => .allowed
  | some .pristine, .removed => .forbidden
  | some .created, .pristine => .allowed
  | some .created, .created => .noop
  | some .created, .changed => .noop
  | some .created, .markedForRemoval => .shortCircuitRemoved
  | some .created, .removed => .allowed
  | some .changed, .pristine => .allowed
  | some .changed, .created => .forbidden
  | some .changed, .changed => .noop
  | some .changed, .markedForRemoval => .allowed
  | some .changed, .removed => .forbidden
  | some .markedForRemoval, .pristine => .forbidden
  | some .markedForRemoval, .created => .forbidden
  | some .markedForRemoval, .changed => .noop
  | some .markedForRemoval, .markedForRemoval => .noop
  | some .markedForRemoval, .removed => .allowed
  | some .removed, .removed => .noop
  | some .removed, _ => .forbidden

/-- A root instance with the given state, no recorded rules, no children
and an empty store: the canonical instance on which the pure transition
behavior of the mark-state functions is observed. -/
def plainRoot (s : Option ModelState) : RootObj :=
  { state := s, isDirty := false, isValidated := true, brokenRules := [],
    validationResults := [], store := [], children := [] }

/-- Dispatches the mark-operation that corresponds to a target state of
the transition table: markAsPristine, markAsCreated, markAsChanged,
markForRemoval or markAsRemoved of the synchronous editable root model. -/
def applyMark (o : RootObj) (target : ModelState) : RootObj × Option JsError :=
  match target with
  | .pristine => RootObj.markAsPristine o
  | .created => RootObj.markAsCreated o
  | .changed => RootObj.markAsChanged o true
  | .markedForRemoval => RootObj.markForRemoval o
  | .removed => RootObj.markAsRemoved o

/-- Whether the observed outcome of a mark-operation on a childless
instance agrees with a table cell: forbidden means an error and an
unchanged state, noop means no error and an unchanged state, allowed
means no error and the target state, and the short-circuit cell means no
error and the removed state. -/
def outcomeMatches (s : Option ModelState) (t : ModelState) (cell : TransitionSpec) : Bool :=
  let res := applyMark (plainRoot s) t
  match cell with
  | .forbidden => res.2.isSome && (res.1.state == s)
  | .noop => res.2.isNone && (res.1.state == s)
  | .allowed => res.2.isNone && (res.1.state == some t)
  | .shortCircuitRemoved => res.2.isNone && (res.1.state == some ModelState.removed)

/-- On every cell of the section 3 table except the unset-to-changed one,
the mark-state functions of the synchronous editable root model behave
exactly as the table prescribes. -/
theorem markOperations_match_specTable_except_unset_changed :
    ∀ (s : Option ModelState) (t : ModelState),
      ¬(s = none ∧ t = ModelState.changed) →
      outcomeMatches s t (specTransitionTable s t) = true := by
  decide

/-- C1: the section 3 table and the transition comment table inside the
source both declare the transition from the unset state to changed a
fatal error, but markAsChanged invoked while the state is still unset
falls through every branch: it raises no error and leaves the state
unset. The claim that every forbidden pair throws is right about the
documented design and wrong about the code. -/
theorem markAsChanged_on_unset_state_silently_ignored :
    specTransitionTable none ModelState.changed = TransitionSpec.forbidden ∧
    (RootObj.markAsChanged (plainRoot none) true).2 = none ∧
    (RootObj.markAsChanged (plainRoot none) true).1.state = none := by
  refine ⟨rfl, rfl, rfl⟩

/-- Lifecycle events emitted by the synchronous root model around its
portal operations (shared/data-portal-event.js). -/
inductive DPEvent
  | preSave
  | postSave
  | preInsert
  | postInsert
  | preUpdate
  | postUpdate
  | preRemove
  | postRemove
deriving DecidableEq, Repr

/-- The outward-visible steps of a portal operation: transaction
boundaries of the connection manager, emitted lifecycle events with a
flag telling whether the event arguments carry an error, and calls to a
method of the external data access object. -/
inductive Effect
  | beginTran
  | commitTran
  | rollbackTran
  | emit (e : DPEvent) (hasError : Bool)
  | daoCall (m : DaoMethod)
deriving DecidableEq, Repr

/-- The authorization actions of rules/authorization-action.js. -/
inductive AuthAction
  | readProperty
  | writeProperty
  | createObject
  | fetchObject
  | updateObject
  | removeObject
  | executeMethod
deriving DecidableEq, Repr

/-- Modelled from the spec: one enabled authorization rule registered for
an action and target pair (rules/authorization-rule.js is not part of the
inspected tree). The denies flag records whether the rule denies the
action for the current principal; a denial produces a broken rule of
severity error built from ruleName and message. -/
structure AuthRule where
  action : AuthAction
  target : String
  denies : Bool
  ruleName : String
  message : String
deriving DecidableEq, Repr

/-- Modelled from the spec: RuleManager.hasPermission
(source/rules/rule-manager.js is not part of the inspected tree). Section
4.2 of the specification: the check returns true iff no enabled rule
denies the action; every denial records a BrokenRule of severity error
into the list of the instance and the check never throws. -/
def hasPermission (rules : List AuthRule) (action : AuthAction) (target : String)
    (br : List BrokenRule) : Bool × List BrokenRule :=
  let denying := rules.filter (fun r => r.action == action && r.target == target && r.denies)
  (denying.isEmpty,
    br ++ denying.map (fun r =>
      { ruleName := r.ruleName, propertyName := target, message := r.message,
        severity := RuleSeverity.error }))

/-- The per-model-type configuration of a portal operation: the model
name, the property catalog, the registered authorization rules, and the
outcome each data access method would produce. The extension hooks
(dataInsert, dataUpdate, dataRemove) are absent, so the standard paths of
the source run. -/
structure PortalConfig where
  modelName : String
  props : List PropertyInfo
  rules : List AuthRule
  daoInsert : Except JsError Dto
  daoUpdate : Except JsError Dto
  daoRemove : Except JsError Unit

/-- The model description constant of the synchronous editable root
model source. -/
def rootModelDesc : String := "Editable root model"

/-- The setPropertyValue function of the synchronous editable root model:
the store write reports whether the value changed, and a change marks the
object as changed by itself. -/
def RootObj.setPropertyValue (o : RootObj) (nm : String) (v : JsValue) : RootObj × Option JsError :=
  let res := DataStore.setValue o.store nm v
  let o1 := { o with store := res.2 }
  if res.1 then RootObj.markAsChanged o1 true else (o1, none)

/-- The baseToDto function: the values of the properties flagged as on
the data transfer object are collected from the store. -/
def RootObj.toDto (cfg : PortalConfig) (o : RootObj) : Dto :=
  (cfg.props.filter (fun p => p.isOnDto)).map (fun p => (p.name, DataStore.getValue o.store p.name))

/-- The baseFromDto function: every property flagged as on the data
transfer object whose name the object carries is written through
setPropertyValue; an exception stops the loop. -/
def RootObj.fromDto (cfg : PortalConfig) (o : RootObj) (dto : Dto) : RootObj × Option JsError :=
  (cfg.props.filter (fun p => p.isOnDto)).foldl
    (fun acc p =>
      match acc.2 with
      | some _ => acc
      | none =>
        match dto.find? (fun e => e.1 == p.name) with
        | some e => RootObj.setPropertyValue acc.1 p.name e.2
        | none => acc)
    (o, none)

mutual

/-- Modelled from the spec: the save method of the synchronous editable
child model (the synchronous editable child model source is not part of
the inspected tree; section 4.4 of the specification). A pristine child
is untouched; a created child is inserted and its children saved after
it; a changed child is updated, the physical call happening only when the
child itself is dirty, and its children saved after it; a child marked
for removal saves its children first and is then removed. The data access
calls of the children are modelled as succeeding, since no inspected
claim exercises a failing child operation. -/
def ChildObj.saveSync : ChildObj → ChildObj × List Effect
  | .mk s d v br vr kids =>
    match s with
    | some .created =>
      let rest := saveChildrenCascade kids
      (.mk (some .pristine) false v br vr rest.1, Effect.daoCall DaoMethod.insert :: rest.2)
    | some .changed =>
      let rest := saveChildrenCascade kids
      let own : List Effect := if d then [Effect.daoCall DaoMethod.update] else []
      (.mk (some .pristine) false v br vr rest.1, own ++ rest.2)
    | some .markedForRemoval =>
      let rest := saveChildrenCascade kids
      (.mk (some .removed) false v br vr rest.1, rest.2 ++ [Effect.daoCall DaoMethod.remove])
    | _ => (.mk s d v br vr kids, [])

/-- The child cascade of insertChildren, updateChildren and
removeChildren: every child is saved with the shared connection. -/
def saveChildrenCascade : List ChildObj → List ChildObj × List Effect
  | [] => ([], [])
  | c :: cs =>
    let res := ChildObj.saveSync c
    let rest := saveChildrenCascade cs
    (res.1 :: rest.1, res.2 ++ rest.2)

end

/-- The data_update function of the synchronous editable root model: a
denied permission silently skips the whole operation; otherwise a
transaction starts, the preSave and preUpdate events fire, the standard
update runs the update method of the data access object when the object
itself is dirty and writes the returned data transfer object back, the
children are saved, the object is marked pristine and the postUpdate,
postSave events and the commit close the transaction. Any error inside
the transaction is wrapped into a DataPortalError with action update; the
postUpdate and postSave events fire with the error attached, the
transaction rolls back and the wrapped error is thrown. -/
def RootObj.dataUpdate (cfg : PortalConfig) (o : RootObj) :
    RootObj × Except JsError Unit × List Effect :=
  let perm := hasPermission cfg.rules AuthAction.updateObject "" o.brokenRules
  let o0 := { o with brokenRules := perm.2 }
  if perm.1 then
    let pre : List Effect :=
      [Effect.beginTran, Effect.emit DPEvent.preSave false, Effect.emit DPEvent.preUpdate false]
    let catchTail : List Effect :=
      [Effect.emit DPEvent.postUpdate true, Effect.emit DPEvent.postSave true,
        Effect.rollbackTran]
    let wrap : JsError → JsError := fun e =>
      JsError.dataPortal rootModelDesc cfg.modelName DaoMethod.update e
    let selfStep : RootObj × Option JsError × List Effect :=
      if o0.isDirty then
        match cfg.daoUpdate with
        | .error e => (o0, some e, [Effect.daoCall DaoMethod.update])
        | .ok dto =>
          let res := RootObj.fromDto cfg o0 dto
          (res.1, res.2, [Effect.daoCall DaoMethod.update])
      else (o0, none, [])
    match selfStep.2.1 with
    | some e => (selfStep.1, .error (wrap e), pre ++ selfStep.2.2 ++ catchTail)
    | none =>
      let cc := saveChildrenCascade selfStep.1.children
      let o1 := { selfStep.1 with children := cc.1 }
      let mp := RootObj.markAsPristine o1
      match mp.2 with
      | some e => (mp.1, .error (wrap e), pre ++ selfStep.2.2 ++ cc.2 ++ catchTail)
      | none =>
        (mp.1, .ok (),
          pre ++ selfStep.2.2 ++ cc.2 ++
            [Effect.emit DPEvent.postUpdate false, Effect.emit DPEvent.postSave false,
              Effect.commitTran])
  else (o0, .ok (), [])

/-- The data_insert function of the synchronous editable root model,
embedded like dataUpdate: a denied permission silently skips; otherwise
transaction, preSave and preInsert events, the insert method of the data
access object with the outgoing data transfer object, the write-back, the
child cascade, markAsPristine, the closing events and the commit; any
error is wrapped with action insert, the closing events fire with the
error, the transaction rolls back and the wrapped error is thrown. -/
def RootObj.dataInsert (cfg : PortalConfig) (o : RootObj) :
    RootObj × Except JsError Unit × List Effect :=
  let perm := hasPermission cfg.rules AuthAction.createObject "" o.brokenRules
  let o0 := { o with brokenRules := perm.2 }
  if perm.1 then
    let pre : List Effect :=
      [Effect.beginTran, Effect.emit DPEvent.preSave false, Effect.emit DPEvent.preInsert false]
    let catchTail : List Effect :=
      [Effect.emit DPEvent.postInsert true, Effect.emit DPEvent.postSave true,
        Effect.rollbackTran]
    let wrap : JsError → JsError := fun e =>
      JsError.dataPortal rootModelDesc cfg.modelName DaoMethod.insert e
    let selfStep : RootObj × Option JsError × List Effect :=
      match cfg.daoInsert with
      | .error e => (o0, some e, [Effect.daoCall DaoMethod.insert])
      | .ok dto =>
        let res := RootObj.fromDto cfg o0 dto
        (res.1, res.2, [Effect.daoCall DaoMethod.insert])
    match selfStep.2.1 with
    | some e => (selfStep.1, .error (wrap e), pre ++ selfStep.2.2 ++ catchTail)
    | none =>
      let cc := saveChildrenCascade selfStep.1.children
      let o1 := { selfStep.1 with children := cc.1 }
      let mp := RootObj.markAsPristine o1
      match mp.2 with
      | some e => (mp.1, .error (wrap e), pre ++ selfStep.2.2 ++ cc.2 ++ catchTail)
      | none =>
        (mp.1, .ok (),
          pre ++ selfStep.2.2 ++ cc.2 ++
            [Effect.emit DPEvent.postInsert false, Effect.emit DPEvent.postSave false,
              Effect.commitTran])
  else (o0, .ok (), [])

/-- The data_remove function of the synchronous editable root model,
embedded like dataUpdate: a denied permission silently skips; otherwise
transaction, preSave and preRemove events, the child cascade first, then
the remove method of the data access object with the key filter,
markAsRemoved, the closing events and the commit; any error is wrapped
with action remove, the closing events fire with the error, the
transaction rolls back and the wrapped error is thrown. -/
def RootObj.dataRemove (cfg : PortalConfig) (o : RootObj) :
    RootObj × Except JsError Unit × List Effect :=
  let perm := hasPermission cfg.rules AuthAction.removeObject "" o.brokenRules
  let o0 := { o with brokenRules := perm.2 }
  if perm.1 then
    let pre : List Effect :=
      [Effect.beginTran, Effect.emit DPEvent.preSave false, Effect.emit DPEvent.preRemove false]
    let catchTail : List Effect :=
      [Effect.emit DPEvent.postRemove true, Effect.emit DPEvent.postSave true,
        Effect.rollbackTran]
    let wrap : JsError → JsError := fun e =>
      JsError.dataPortal rootModelDesc cfg.modelName DaoMethod.remove e
    let cc := saveChildrenCascade o0.children
    let o1 := { o0 with children := cc.1 }
    match cfg.daoRemove with
    | .error e => (o1, .error (wrap e), pre ++ cc.2 ++ [Effect.daoCall DaoMethod.remove] ++ catchTail)
    | .ok _ =>
      let mr := RootObj.markAsRemoved o1
      match mr.2 with
      | some e =>
        (mr.1, .error (wrap e), pre ++ cc.2 ++ [Effect.daoCall DaoMethod.remove] ++ catchTail)
      | none =>
        (mr.1, .ok (),
          pre ++ cc.2 ++
            [Effect.daoCall DaoMethod.remove, Effect.emit DPEvent.postRemove false,
              Effect.emit DPEvent.postSave false, Effect.commitTran])
  else (o0, .ok (), [])

/-- The value the save method hands back to its caller: the instance
itself, null after a removal, or undefined when the validity guard
skipped the save entirely. -/
inductive SaveResult
  | this
  | nullR
  | undefinedR
deriving DecidableEq, Repr

/-- The save method of the synchronous editable root model: the validity
guard runs first, and when it fails the method returns undefined without
touching the portal; otherwise the state dispatches to data_insert,
data_update or data_remove, every other state returning the instance
unchanged; a portal error propagates to the caller. -/
def RootObj.save (cfg : PortalConfig) (o : RootObj) :
    RootObj × Except JsError SaveResult × List Effect :=
  let vres := RootObj.isValidRun o
  if vres.1 then
    match vres.2.state with
    | some .created =>
      let r := RootObj.dataInsert cfg vres.2
      (r.1, r.2.1.map (fun _ => SaveResult.this), r.2.2)
    | some .changed =>
      let r := RootObj.dataUpdate cfg vres.2
      (r.1, r.2.1.map (fun _ => SaveResult.this), r.2.2)
    | some .markedForRemoval =>
      let r := RootObj.dataRemove cfg vres.2
      (r.1, r.2.1.map (fun _ => SaveResult.nullR), r.2.2)
    | _ => (vres.2, .ok SaveResult.this, [])
  else (vres.2, .ok SaveResult.undefinedR, [])

/-- A child object carrying one recorded broken rule of severity error,
otherwise pristine and already validated. -/
def childWithErrorRule : ChildObj :=
  .mk (some ModelState.pristine) false true
    [{ ruleName := "Required", propertyName := "city", message := "missing",
       severity := RuleSeverity.error }]
    [{ ruleName := "Required", propertyName := "city", message := "missing",
       severity := RuleSeverity.error }]
    []

/-- A pristine, not yet validated root instance whose own validation
rules all pass, holding one child object that breaks an error-severity
rule. -/
def rootWithInvalidChild : RootObj :=
  { state := some ModelState.pristine, isDirty := false, isValidated := false,
    brokenRules := [], validationResults := [], store := [],
    children := [childWithErrorRule] }

/-- C2: the isValid method of the synchronous editable root model answers
true for an instance whose descendant child object records an
error-severity broken rule, although the doc comment of the method and
the specification promise the recursive check; the method reads only the
own broken rule list and never consults the children. -/
theorem isValid_root_sync_ignores_descendant_error :
    (RootObj.isValidRun rootWithInvalidChild).1 = true ∧
    RootObj.hasErrorRecursive (RootObj.isValidRun rootWithInvalidChild).2 = true := by
  exact ⟨rfl, rfl⟩

/-- A pristine root instance whose validation rules would record an
error, so the validity guard of save fails. -/
def pristineInvalidRoot : RootObj :=
  { state := some ModelState.pristine, isDirty := false, isValidated := false,
    brokenRules := [],
    validationResults :=
      [{ ruleName := "Required", propertyName := "quantity", message := "missing",
         severity := RuleSeverity.error }],
    store := [], children := [] }

/-- A portal configuration with no registered authorization rules and
succeeding data access methods. -/
def plainConfig : PortalConfig :=
  { modelName := "BlanketOrder", props := [], rules := [],
    daoInsert := .ok [], daoUpdate := .ok [], daoRemove := .ok () }

/-- C5 counterexample: on a pristine instance whose validation fails,
save performs no data access call and leaves the state pristine, but it
returns undefined instead of the instance, because the return of the
instance sits inside the validity guard. -/
theorem save_on_invalid_pristine_returns_undefined :
    (RootObj.save plainConfig pristineInvalidRoot).2.1 = Except.ok SaveResult.undefinedR ∧
    (RootObj.save plainConfig pristineInvalidRoot).2.1 ≠ Except.ok SaveResult.this := by
  refine ⟨rfl, ?_⟩
  intro h
  rw [show (RootObj.save plainConfig pristineInvalidRoot).2.1 =
      Except.ok SaveResult.undefinedR from rfl] at h
  exact SaveResult.noConfusion (Except.ok.inj h)

/-- C5 amended: save on a pristine instance performs no data access call
and leaves the state pristine; it returns the instance itself when the
validity guard passes, and undefined when the guard fails. -/
theorem save_on_pristine_is_noop :
    ∀ (cfg : PortalConfig) (o : RootObj), o.state = some ModelState.pristine →
      (RootObj.save cfg o).2.2 = [] ∧
      (RootObj.save cfg o).1.state = some ModelState.pristine ∧
      ((RootObj.isValidRun o).1 = true →
        (RootObj.save cfg o).2.1 = Except.ok SaveResult.this) ∧
      ((RootObj.isValidRun o).1 = false →
        (RootObj.save cfg o).2.1 = Except.ok SaveResult.undefinedR) := by
  intro cfg o hstate
  have hst2 : (RootObj.isValidRun o).2.state = some ModelState.pristine := by
    unfold RootObj.isValidRun RootObj.checkRules
    by_cases hv : o.isValidated <;> simp [hv, hstate]
  by_cases hval : (RootObj.isValidRun o).1 = true
  · simp [RootObj.save, hval, hst2]
  · simp only [Bool.not_eq_true] at hval
    simp [RootObj.save, hval, hst2]

/-- C5 amended witness: a valid pristine instance, on which save keeps
the state, produces no effect and returns the instance. -/
theorem save_on_pristine_is_noop_witness :
    (plainRoot (some ModelState.pristine)).state = some ModelState.pristine ∧
    (RootObj.save plainConfig (plainRoot (some ModelState.pristine))).2.2 = [] ∧
    (RootObj.save plainConfig (plainRoot (some ModelState.pristine))).2.1 =
      Except.ok SaveResult.this := by
  have h := save_on_pristine_is_noop plainConfig (plainRoot (some ModelState.pristine)) rfl
  exact ⟨rfl, h.1, h.2.2.1 rfl⟩

/-- C6: remove on a created instance short-circuits the state straight to
removed without touching the children or the data access layer, and a
subsequent save produces no effect at all, in particular no data access
call. -/
theorem remove_on_created_short_circuits :
    ∀ (cfg : PortalConfig) (o : RootObj), o.state = some ModelState.created →
      (RootObj.remove o).2 = none ∧
      (RootObj.remove o).1.state = some ModelState.removed ∧
      (RootObj.save cfg (RootObj.remove o).1).2.2 = [] := by
  intro cfg o hstate
  have hrem : RootObj.remove o = ({ o with state := some ModelState.removed }, none) := by
    unfold RootObj.remove RootObj.markForRemoval
    rw [hstate]
  refine ⟨by rw [hrem], by rw [hrem], ?_⟩
  rw [hrem]
  set o1 : RootObj := { o with state := some ModelState.removed } with ho1
  have hst2 : (RootObj.isValidRun o1).2.state = some ModelState.removed := by
    unfold RootObj.isValidRun RootObj.checkRules
    split <;> rfl
  by_cases hval : (RootObj.isValidRun o1).1 = true
  · simp [RootObj.save, hval, hst2]
  · simp only [Bool.not_eq_true] at hval
    simp [RootObj.save, hval, hst2]

/-- C6 witness: a concrete created instance on which remove reaches the
removed state and the following save produces no effect. -/
theorem remove_on_created_short_circuits_witness :
    (plainRoot (some ModelState.created)).state = some ModelState.created ∧
    (RootObj.remove (plainRoot (some ModelState.created))).1.state =
      some ModelState.removed ∧
    (RootObj.save plainConfig (RootObj.remove (plainRoot (some ModelState.created))).1).2.2
      = [] := by
  have h := remove_on_created_short_circuits plainConfig
    (plainRoot (some ModelState.created)) rfl
  exact ⟨rfl, h.2.1, h.2.2⟩

/-- The childHasChanged notifications a child sends to its root parent:
each one invokes markAsChanged with a false itself argument on the root;
an exception stops the sequence. -/
def applyRootNotifications : Nat → RootObj → RootObj × Option JsError
  | 0, p => (p, none)
  | n + 1, p =>
    let r := RootObj.markAsChanged p false
    match r.2 with
    | some e => (r.1, some e)
    | none => applyRootNotifications n r.1

/-- Marking a child object as changed while it sits under a root parent:
the markAsChanged of the child runs first, and its propagateChange calls
reach the parent through childHasChanged. -/
def childMarkAsChangedUnderRoot (itself : Bool) (p : RootObj) (c : ChildObj) :
    RootObj × ChildObj × Option JsError :=
  let r := ChildObj.markAsChangedLocal itself c
  match r.2.1 with
  | some e => (p, r.1, some e)
  | none =>
    let pr := applyRootNotifications r.2.2 p
    (pr.1, r.1, pr.2)

/-- C7: marking a pristine child of a pristine root parent as changed
notifies the parent, whose state becomes changed: the isDirty getter of
the parent turns true while its isSelfDirty getter stays false, because
childHasChanged passes a false itself argument. -/
theorem child_change_propagates_to_parent_dirty :
    ∀ (p : RootObj) (c : ChildObj),
      p.state = some ModelState.pristine → p.isDirty = false →
      c.state = some ModelState.pristine →
      (childMarkAsChangedUnderRoot true p c).2.2 = none ∧
      RootObj.isDirtyGet (childMarkAsChangedUnderRoot true p c).1 = true ∧
      RootObj.isSelfDirtyGet (childMarkAsChangedUnderRoot true p c).1 = false ∧
      (childMarkAsChangedUnderRoot true p c).2.1.state = some ModelState.changed := by
  intro p c hp hpd hc
  cases c with
  | mk s d v br vr kids =>
    have hs : s = some ModelState.pristine := hc
    subst hs
    simp [childMarkAsChangedUnderRoot, ChildObj.markAsChangedLocal,
      applyRootNotifications, RootObj.markAsChanged, hp, RootObj.isDirtyGet,
      RootObj.isSelfDirtyGet, hpd, ChildObj.state]

/-- C7 witness: a concrete pristine parent and pristine child on which
the propagation yields a dirty, not self-dirty parent. -/
theorem child_change_propagates_to_parent_dirty_witness :
    (plainRoot (some ModelState.pristine)).state = some ModelState.pristine ∧
    RootObj.isDirtyGet
      (childMarkAsChangedUnderRoot true (plainRoot (some ModelState.pristine))
        (ChildObj.mk (some ModelState.pristine) false true [] [] [])).1 = true ∧
    RootObj.isSelfDirtyGet
      (childMarkAsChangedUnderRoot true (plainRoot (some ModelState.pristine))
        (ChildObj.mk (some ModelState.pristine) false true [] [] [])).1 = false := by
  have h := child_change_propagates_to_parent_dirty (plainRoot (some ModelState.pristine))
    (ChildObj.mk (some ModelState.pristine) false true [] [] []) rfl rfl rfl
  exact ⟨rfl, h.2.1, h.2.2.1⟩

/-- C3: when the update method of the data access object raises while a
changed, valid, authorized and self-dirty instance is saved, the
transaction rolls back, the caller receives a DataPortalError that
carries the update action and the original cause, and the in-memory
state is still changed afterwards: markAsPristine is never reached on the
failing path. -/
theorem save_on_changed_with_failing_update_rolls_back :
    ∀ (cfg : PortalConfig) (o : RootObj) (e : JsError),
      o.state = some ModelState.changed →
      o.isDirty = true →
      (RootObj.isValidRun o).1 = true →
      (hasPermission cfg.rules AuthAction.updateObject "" []).1 = true →
      cfg.daoUpdate = Except.error e →
      (RootObj.save cfg o).2.1 =
        Except.error (JsError.dataPortal rootModelDesc cfg.modelName DaoMethod.update e) ∧
      Effect.rollbackTran ∈ (RootObj.save cfg o).2.2 ∧
      (RootObj.save cfg o).2.2 =
        [Effect.beginTran, Effect.emit DPEvent.preSave false,
          Effect.emit DPEvent.preUpdate false, Effect.daoCall DaoMethod.update,
          Effect.emit DPEvent.postUpdate true, Effect.emit DPEvent.postSave true,
          Effect.rollbackTran] ∧
      (RootObj.save cfg o).1.state = some ModelState.changed := by
  intro cfg o e hstate hdirty hvalid hperm hdao
  have hst2 : (RootObj.isValidRun o).2.state = some ModelState.changed := by
    unfold RootObj.isValidRun RootObj.checkRules
    split <;> exact hstate
  have hd2 : (RootObj.isValidRun o).2.isDirty = true := by
    unfold RootObj.isValidRun RootObj.checkRules
    split <;> exact hdirty
  have hperm2 : ∀ br, (hasPermission cfg.rules AuthAction.updateObject "" br).1 = true := by
    intro br; exact hperm
  simp [RootObj.save, hvalid, hst2, RootObj.dataUpdate, hperm2, hd2, hdao, Except.map]

/-- A changed, already validated instance with no recorded broken rules,
on which the failing update scenario is exercised. -/
def changedRoot : RootObj :=
  { state := some ModelState.changed, isDirty := true, isValidated := true,
    brokenRules := [], validationResults := [], store := [], children := [] }

/-- A portal configuration whose update method of the data access object
raises a failure. -/
def failingUpdateConfig : PortalConfig :=
  { modelName := "BlanketOrder", props := [], rules := [],
    daoInsert := .ok [], daoUpdate := .error (JsError.daoFailure 7), daoRemove := .ok () }

/-- C3 witness: a concrete changed instance whose update raises; the save
rolls back, throws the wrapped portal error and keeps the changed
state. -/
theorem save_on_changed_with_failing_update_rolls_back_witness :
    changedRoot.state = some ModelState.changed ∧
    (RootObj.save failingUpdateConfig changedRoot).2.1 =
      Except.error (JsError.dataPortal rootModelDesc "BlanketOrder" DaoMethod.update
        (JsError.daoFailure 7)) ∧
    Effect.rollbackTran ∈ (RootObj.save failingUpdateConfig changedRoot).2.2 ∧
    (RootObj.save failingUpdateConfig changedRoot).1.state = some ModelState.changed := by
  have h := save_on_changed_with_failing_update_rolls_back failingUpdateConfig changedRoot
    (JsError.daoFailure 7) rfl rfl rfl rfl rfl
  exact ⟨rfl, h.1, h.2.1, h.2.2.2⟩

/-- The canBeRead check of the read-only child model and of the
synchronous editable root model: hasPermission for the readProperty
action on the property name. -/
def canBeRead (rules : List AuthRule) (br : List BrokenRule) (propName : String) :
    Bool × List BrokenRule :=
  hasPermission rules AuthAction.readProperty propName br

/-- The readPropertyValue function of the read-only child model and of
the synchronous editable root model: when the read is permitted the
stored value is returned, otherwise null; both branches return normally,
the result is never a thrown error. -/
def readPropertyValue (rules : List AuthRule) (store : DataStore) (br : List BrokenRule)
    (propName : String) : Except JsError JsValue × List BrokenRule :=
  let perm := canBeRead rules br propName
  if perm.1 then (.ok (DataStore.getValue store propName), perm.2)
  else (.ok JsValue.vNull, perm.2)

/-- C4: reading a property whose read is denied by exactly one enabled
authorization rule returns null without throwing, and the recorded
broken rules grow by exactly one entry, of severity error, for that
denial. -/
theorem denied_read_returns_null_and_records_one_error :
    ∀ (rules : List AuthRule) (store : DataStore) (br : List BrokenRule) (p : String),
      (rules.filter (fun r =>
        r.action == AuthAction.readProperty && r.target == p && r.denies)).length = 1 →
      (readPropertyValue rules store br p).1 = Except.ok JsValue.vNull ∧
      ∃ nb : BrokenRule,
        (readPropertyValue rules store br p).2 = br ++ [nb] ∧
        nb.severity = RuleSeverity.error := by
  intro rules store br p hone
  obtain ⟨a, ha⟩ := List.length_eq_one.mp hone
  have hne : (rules.filter (fun r =>
      r.action == AuthAction.readProperty && r.target == p && r.denies)).isEmpty = false := by
    rw [ha]; rfl
  constructor
  · simp [readPropertyValue, canBeRead, hasPermission, hne]
  · refine ⟨BrokenRule.mk a.ruleName p a.message RuleSeverity.error, ?_, rfl⟩
    simp [readPropertyValue, canBeRead, hasPermission, hne, ha]

/-- An enabled authorization rule that denies reading the price
property. -/
def denyPriceRead : AuthRule :=
  { action := AuthAction.readProperty, target := "price", denies := true,
    ruleName := "IsInRole", message := "denied" }

/-- C4 witness: one enabled rule denying the read of the price property;
the read yields null and one error-severity broken rule is recorded. -/
theorem denied_read_returns_null_and_records_one_error_witness :
    ([denyPriceRead].filter (fun r =>
      r.action == AuthAction.readProperty && r.target == "price" && r.denies)).length = 1 ∧
    (readPropertyValue [denyPriceRead]
      [("price", JsValue.vNum 12)] [] "price").1 = Except.ok JsValue.vNull ∧
    ∃ nb : BrokenRule,
      (readPropertyValue [denyPriceRead]
        [("price", JsValue.vNum 12)] [] "price").2 = [] ++ [nb] ∧
      nb.severity = RuleSeverity.error := by
  have h := denied_read_returns_null_and_records_one_error [denyPriceRead]
    [("price", JsValue.vNum 12)] [] "price" rfl
  exact ⟨rfl, h.1, h.2⟩

/-- The mutable variables of the counting join of fetchChildren in the
read-only child model: the number of completed children, the first error
kept by the error-or-err assignment, and the list of completion callback
invocations with their payloads. -/
structure JoinState where
  count : Nat
  firstError : Option JsError
  fired : List (Option JsError)
deriving DecidableEq, Repr

/-- The finish helper of fetchChildren: the accumulated error keeps the
first non-null value, the counter increments, and the completion
callback fires with the accumulated error exactly when the counter
reaches the child count. -/
def joinFinish (n : Nat) (st : JoinState) (err : Option JsError) : JoinState :=
  let fe : Option JsError :=
    match st.firstError with
    | some e => some e
    | none => err
  let c := st.count + 1
  { count := c, firstError := fe,
    fired := if c == n then st.fired ++ [fe] else st.fired }

/-- Running the join of fetchChildren over the results of the child
operations in completion order, each child calling finish exactly
once. -/
def joinRun (n : Nat) (es : List (Option JsError)) : JoinState :=
  es.foldl (joinFinish n) { count := 0, firstError := none, fired := [] }

/-- The fetchChildren function of the read-only child model as seen
through its completion callback: with no child properties the callback
fires immediately with null, otherwise every child is started and the
counting join collects the completions. -/
def fetchChildrenJoin (es : List (Option JsError)) : List (Option JsError) :=
  if es.length == 0 then [none] else (joinRun es.length es).fired

/-- The error-or-err accumulation of the join: the first non-null value
wins. -/
def firstErrorAcc (a : Option JsError) (es : List (Option JsError)) : Option JsError :=
  es.foldl (fun x y => match x with | some e => some e | none => y) a

theorem firstErrorAcc_some (e : JsError) :
    ∀ (es : List (Option JsError)), firstErrorAcc (some e) es = some e := by
  intro es
  induction es with
  | nil => rfl
  | cons a rest ih => simpa [firstErrorAcc] using ih

theorem firstErrorAcc_eq_head_filterMap :
    ∀ (es : List (Option JsError)), firstErrorAcc none es = (es.filterMap id).head? := by
  intro es
  induction es with
  | nil => rfl
  | cons a rest ih =>
    cases a with
    | none => simpa [firstErrorAcc] using ih
    | some e =>
      have h1 : firstErrorAcc none (some e :: rest) = firstErrorAcc (some e) rest := rfl
      rw [h1, firstErrorAcc_some e]
      simp [List.filterMap_cons]

theorem joinRun_fired_of_short :
    ∀ (es : List (Option JsError)) (st : JoinState) (n : Nat),
      st.count + es.length < n →
      (es.foldl (joinFinish n) st).fired = st.fired := by
  intro es
  induction es with
  | nil => intro st n _; rfl
  | cons a rest ih =>
    intro st n hlt
    simp only [List.length_cons] at hlt
    have hne : (st.count + 1 == n) = false := by
      simp only [beq_eq_false_iff_ne, ne_eq]
      omega
    have hcount : (joinFinish n st a).count = st.count + 1 := rfl
    have hrec := ih (joinFinish n st a) n (by rw [hcount]; omega)
    simp only [List.foldl_cons] at *
    rw [hrec]
    simp [joinFinish, hne]

theorem joinRun_fired_of_full :
    ∀ (es : List (Option JsError)) (st : JoinState) (n : Nat),
      es ≠ [] → n = st.count + es.length →
      (es.foldl (joinFinish n) st).fired = st.fired ++ [firstErrorAcc st.firstError es] := by
  intro es
  induction es with
  | nil => intro st n h _; exact absurd rfl h
  | cons a rest ih =>
    intro st n _ hn
    cases rest with
    | nil =>
      have heq : (st.count + 1 == n) = true := by
        simp only [List.length_cons, List.length_nil] at hn
        simp only [beq_iff_eq]
        omega
      simp [joinFinish, heq, firstErrorAcc]
    | cons b rest2 =>
      simp only [List.length_cons] at hn
      have hne : (st.count + 1 == n) = false := by
        simp only [beq_eq_false_iff_ne, ne_eq]
        omega
      have hcount : (joinFinish n st a).count = st.count + 1 := rfl
      have hrec := ih (joinFinish n st a) n (by simp)
        (by rw [hcount]; simp only [List.length_cons]; omega)
      simp only [List.foldl_cons] at *
      rw [hrec]
      simp [joinFinish, hne, firstErrorAcc]

/-- C8: over one or more children the completion callback of
fetchChildren fires exactly once, only after every child has completed,
and it carries the first error encountered in completion order, null
when every child succeeded: every strict prefix of the completions fires
nothing, and the full run fires the single payload. -/
theorem fetchChildren_join_fires_once_with_first_error :
    ∀ (es : List (Option JsError)), 1 ≤ es.length →
      fetchChildrenJoin es = [(es.filterMap id).head?] ∧
      (∀ k, k < es.length → (joinRun es.length (es.take k)).fired = []) := by
  intro es hlen
  constructor
  · have hne : es ≠ [] := by
      intro h; rw [h] at hlen; exact absurd hlen (by simp)
    have hfull := joinRun_fired_of_full es
      { count := 0, firstError := none, fired := [] } es.length hne (by simp)
    have hlz : (es.length == 0) = false := by
      simp only [beq_eq_false_iff_ne, ne_eq]
      omega
    unfold fetchChildrenJoin joinRun
    rw [hlz, if_neg (by simp), hfull, firstErrorAcc_eq_head_filterMap]
    rfl
  · intro k hk
    have := joinRun_fired_of_short (es.take k)
      { count := 0, firstError := none, fired := [] } es.length
      (by simp only [List.length_take]; omega)
    exact this

/-- C8 witness: three children completing with a failure in the middle;
no prefix fires the callback and the full run fires it once with the
error of the second child. -/
theorem fetchChildren_join_fires_once_with_first_error_witness :
    1 ≤ ([none, some (JsError.daoFailure 3), none] : List (Option JsError)).length ∧
    fetchChildrenJoin [none, some (JsError.daoFailure 3), none] =
      [some (JsError.daoFailure 3)] ∧
    (joinRun 3 ([none, some (JsError.daoFailure 3), none].take 2)).fired = [] := by
  have h := fetchChildren_join_fires_once_with_first_error
    [none, some (JsError.daoFailure 3), none] (by decide)
  exact ⟨by decide, h.1, h.2 2 (by decide)⟩

/-- A member of the synchronous editable root model instance as seen
from inside the isSavable getter: either a boolean produced by an
accessor-property getter, or a callable function member. -/
inductive MemberValue
  | mBool (b : Bool)
  | mFun (f : Unit → Bool)

/-- A JavaScript call expression on a member value: calling a function
runs it, calling anything whose typeof is not function throws a
TypeError. -/
def callMember : MemberValue → Except JsError Bool
  | .mFun f => .ok (f ())
  | .mBool _ => .error JsError.typeError

/-- The own members of the synchronous editable root model instance that
the isSavable getter touches: isDeleted, isNew and isDirty are defined
with Object.defineProperty as accessor properties whose getters produce
booleans, while isValid is assigned as a function member. -/
def RootObj.member (o : RootObj) (nm : String) : Option MemberValue :=
  if nm == "isDeleted" then some (.mBool (RootObj.isDeletedGet o))
  else if nm == "isNew" then some (.mBool (RootObj.isNewGet o))
  else if nm == "isDirty" then some (.mBool (RootObj.isDirtyGet o))
  else if nm == "isSelfDirty" then some (.mBool (RootObj.isSelfDirtyGet o))
  else if nm == "isValid" then some (.mFun (fun _ => (RootObj.isValidRun o).1))
  else none

/-- Reading a member of the instance and calling it: an absent member
evaluates to undefined, whose call also throws a TypeError. -/
def callMemberNamed (o : RootObj) (nm : String) : Except JsError Bool :=
  match RootObj.member o nm with
  | some v => callMember v
  | none => .error JsError.typeError

/-- The isSavable getter of the synchronous editable root model: the
source invokes self.isDeleted, self.isNew, self.isDirty and self.isValid
as functions; the authorization check chosen by the branches uses the
action-level hasPermission of the instance. -/
def RootObj.isSavableGet (rules : List AuthRule) (o : RootObj) : Except JsError Bool := do
  let auth ←
    (do
      let deleted ← callMemberNamed o "isDeleted"
      if deleted then
        pure (hasPermission rules AuthAction.removeObject "" o.brokenRules).1
      else do
        let fresh ← callMemberNamed o "isNew"
        if fresh then
          pure (hasPermission rules AuthAction.createObject "" o.brokenRules).1
        else
          pure (hasPermission rules AuthAction.updateObject "" o.brokenRules).1)
  let dirty ← callMemberNamed o "isDirty"
  let valid ← callMemberNamed o "isValid"
  pure (auth && dirty && valid)

/-- C9: reading the isSavable property never produces a boolean: the
first step of its getter calls self.isDeleted as a function, but
isDeleted is an accessor property whose getter yields a boolean, so the
call raises a TypeError on every instance, whatever the state and the
registered rules. -/
theorem isSavable_getter_always_throws_typeError :
    ∀ (rules : List AuthRule) (o : RootObj),
      RootObj.isSavableGet rules o = Except.error JsError.typeError := by
  intro rules o
  rfl

/-- The broken-rule output an item of the read-only root collection can
contribute: the merged child outputs are counted, nothing more of their
shape matters to the failing merge step. -/
abbrev ItemReportsRules := Bool

/-- The identifiers visible from the merge step inside getBrokenRules of
the synchronous read-only root collection: the forEach callback scope,
the getBrokenRules scope, the constructor closure, the factory scope and
the module scope, in resolution order. The identifier property appears
nowhere. -/
def getBrokenRulesScopeChain : List String :=
  ["item", "childBrokenRules",
    "namespace", "bro",
    "self", "items", "brokenRules", "isValidated", "dataContext", "connection",
    "totalItems", "eventHandlers", "getTransferContext", "baseToCto",
    "getAuthorizationContext", "canDo", "canExecute", "getDataContext",
    "raiseEvent", "wrapError", "data_fetch",
    "name", "itemType", "rules", "extensions", "dao", "ReadOnlyRootCollectionSync",
    "util", "config", "EnsureArgument", "CollectionBase", "ModelError",
    "ExtensionManagerSync", "EventHandlerList", "TransferContext", "RuleManager",
    "BrokenRuleList", "AuthorizationAction", "AuthorizationContext",
    "BrokenRulesResponse", "DataPortalAction", "DataPortalContext",
    "DataPortalEvent", "DataPortalEventArgs", "DataPortalError",
    "CLASS_NAME", "MODEL_DESC", "M_FETCH", "ReadOnlyRootCollectionSyncFactory",
    "require", "module", "exports"]

/-- Resolution of an identifier under strict mode: a name that no
enclosing scope declares raises a ReferenceError. -/
def resolveIdentStrict (env : List String) (x : String) : Except JsError Unit :=
  if x ∈ env then .ok () else .error JsError.referenceError

/-- The getBrokenRules method of the synchronous read-only root
collection: the own output starts empty, then every item contributing
broken rules is merged with bro.addChild whose first argument reads the
identifier property; the method returns null when nothing was merged,
the merged output otherwise. -/
def ReadOnlyRootCollectionSync.getBrokenRules (itemResults : List ItemReportsRules) :
    Except JsError (Option Nat) :=
  let folded := itemResults.foldl
    (fun acc has =>
      match acc with
      | .error e => .error e
      | .ok n =>
        if has then
          match resolveIdentStrict getBrokenRulesScopeChain "property" with
          | .error e => .error e
          | .ok _ => .ok (n + 1)
        else .ok n)
    (Except.ok 0)
  match folded with
  | .error e => .error e
  | .ok n => .ok (if n == 0 then none else some n)

theorem getBrokenRules_property_not_in_scope :
    ("property" ∈ getBrokenRulesScopeChain) = False := by
  simp [getBrokenRulesScopeChain]

/-- C10: as soon as one collection item reports broken rules, the merge
step of getBrokenRules reads the undeclared identifier property, so
under strict mode the call raises a ReferenceError instead of returning
the merged output. -/
theorem getBrokenRules_raises_referenceError :
    ∀ (itemResults : List ItemReportsRules), true ∈ itemResults →
      ReadOnlyRootCollectionSync.getBrokenRules itemResults =
        Except.error JsError.referenceError := by
  intro itemResults hmem
  have hres : resolveIdentStrict getBrokenRulesScopeChain "property" =
      Except.error JsError.referenceError := by
    unfold resolveIdentStrict
    rw [if_neg]
    intro h
    exact (getBrokenRules_property_not_in_scope ▸ h)
  unfold ReadOnlyRootCollectionSync.getBrokenRules
  rw [hres]
  have hfold : ∀ (l : List ItemReportsRules) (n : Nat), true ∈ l →
      l.foldl
        (fun acc has =>
          match acc with
          | .error e => .error e
          | .ok n =>
            if has then
              match Except.error (ε := JsError) (α := Unit) JsError.referenceError with
              | .error e => .error e
              | .ok _ => .ok (n + 1)
            else .ok n)
        (Except.ok n) = Except.error JsError.referenceError := by
    intro l
    induction l with
    | nil => intro n h; cases h
    | cons a rest ih =>
      intro n h
      cases a with
      | true =>
        have herr : ∀ (l2 : List ItemReportsRules),
            l2.foldl
              (fun acc has =>
                match acc with
                | .error e => .error e
                | .ok n =>
                  if has then
                    match Except.error (ε := JsError) (α := Unit) JsError.referenceError with
                    | .error e => .error e
                    | .ok _ => .ok (n + 1)
                  else .ok n)
              (Except.error JsError.referenceError) = Except.error JsError.referenceError := by
          intro l2
          induction l2 with
          | nil => rfl
          | cons b r2 ih2 => simpa using ih2
        simpa using herr rest
      | false =>
        have hmem2 : true ∈ rest := by
          cases h with
          | tail _ h2 => exact h2
        simpa using ih n hmem2
  rw [hfold itemResults 0 hmem]

/-- C10 witness: a single item reporting broken rules makes the call
raise the ReferenceError. -/
theorem getBrokenRules_raises_referenceError_witness :
    true ∈ ([true] : List ItemReportsRules) ∧
    ReadOnlyRootCollectionSync.getBrokenRules [true] =
      Except.error JsError.referenceError := by
  exact ⟨List.mem_singleton.mpr rfl, getBrokenRules_raises_referenceError [true]
    (List.mem_singleton.mpr rfl)⟩

end BusinessObjects
